import Mathlib

/-!
Verification of the Lottery widget (`src/src/component/Dashboard.tsx` and the
second variant `src/unnamed/part_000`).  The two variants are byte-identical
except for line 80 of `handleDraw`: the Dashboard variant clears the whole
pool after a draw (`setPlayers([])`), the part_000 variant removes only the
winner (`setPlayers((prev) => prev.filter((p) => p.id !== newWinner.id))`).
We embed the component state, its handlers, the localStorage load path and the
draw completion, and prove the specified properties about them.
-/

/-- `Player` mirrors `type Player = { name: string; number: string; id: number }`
(Dashboard.tsx line 4).  `id` is produced by `Date.now()`, an integer
millisecond timestamp, modelled as `Int`. -/
structure Player where
  name : String
  number : String
  id : Int
deriving Repr, DecidableEq

/-- `Winner` mirrors `type Winner = Player & { date: string }` (line 5). -/
structure Winner where
  name : String
  number : String
  id : Int
  date : String
deriving Repr, DecidableEq

/-- The component state of `LotteryApp` (lines 8-15).  `players`, `name`,
`number`, `winner`, `isDrawing` and `winnersHistory` are the `useState` cells
the claims are about (`showConfetti` / `showWinnerPopup` are presentation-only
and omitted).  `pending` models the closure of the in-flight `setInterval`
callback created by `handleDraw`: when a draw is running it holds the
`players` array captured by that closure (JavaScript closes over the render's
`players` value at the moment `handleDraw` ran); it is `none` when no draw is
in flight. -/
structure LotteryState where
  players : List Player
  name : String
  number : String
  winner : Option Player
  isDrawing : Bool
  winnersHistory : List Winner
  pending : Option (List Player)
deriving Repr, DecidableEq

/-- Whitespace recognised by `String.prototype.trim` (restricted to the ASCII
whitespace characters; the repository only ever trims user-typed names and
numbers). -/
def isJsWs (c : Char) : Bool :=
  c = ' ' || c = '\t' || c = '\n' || c = '\r' || c = '\x0b' || c = '\x0c'

/-- Model of `String.prototype.trim`: drop leading and trailing whitespace. -/
def jsTrim (s : String) : String :=
  ⟨((s.toList.dropWhile isJsWs).reverse.dropWhile isJsWs).reverse⟩

/-- `onChange` of the Name input (line 183): `setName(e.target.value)`. -/
def setNameInput (s : LotteryState) (v : String) : LotteryState :=
  { s with name := v }

/-- `onChange` of the Phone Number input (line 190): `setNumber(e.target.value)`. -/
def setNumberInput (s : LotteryState) (v : String) : LotteryState :=
  { s with number := v }

/-- `handleRegister` (lines 38-48).  Rejects when either field trims to the
empty string (`!name.trim() || !number.trim()` — the only falsy string is
`""`); otherwise appends `{ name: name.trim(), number: number.trim(),
id: Date.now() }` to `players` and clears both inputs.  `now` models the
`Date.now()` reading, a non-decreasing millisecond clock whose successive
readings may be equal. -/
def handleRegister (s : LotteryState) (now : Int) : LotteryState :=
  if jsTrim s.name = "" ∨ jsTrim s.number = "" then s
  else
    { s with
      players := s.players ++ [⟨jsTrim s.name, jsTrim s.number, now⟩]
      name := ""
      number := "" }

/-- `handleDraw` (lines 54-64): returns at once on an empty pool, otherwise
sets `isDrawing`, clears `winner`, and schedules the interval whose closure
captures the current `players` array (modelled by `pending`). -/
def handleDraw (s : LotteryState) : LotteryState :=
  if s.players.length = 0 then s
  else { s with isDrawing := true, winner := none, pending := some s.players }

/-- The Draw button (lines 261-263) carries
`disabled={players.length === 0 || isDrawing}`; a user draw request goes
through this control, so a request while a draw is in flight (or on an empty
pool) never reaches `handleDraw`. -/
def drawButtonClick (s : LotteryState) : LotteryState :=
  if s.players.length = 0 ∨ s.isDrawing = true then s else handleDraw s

/-- `const randomIndex = Math.floor(Math.random() * players.length)` (line 68).
`r` models the `Math.random()` result, a number in `[0, 1)`, idealised as a
rational (every IEEE double in `[0, 1)` is a rational). -/
def randomIndex (r : ℚ) (n : ℕ) : ℕ :=
  (Int.floor (r * (n : ℚ))).toNat

/-- The two post-draw pool policies found at line 80 of the two variants. -/
inductive PoolPolicy where
  | clearAll
  | removeWinner
deriving Repr, DecidableEq

/-- The body of the interval callback once `elapsed >= spinDuration`
(lines 66-83), i.e. what happens when the 4-second delay completes.  The
winner is selected from the closure-captured pool (`pending`, the `players`
the callback closed over), a `WinnerRecord` `{ ...newWinner, date }` is
prepended to the current history (`setWinnersHistory((prev) => [record,
...prev])` is a functional update, so it applies to the history at completion
time), and the pool is updated per variant: Dashboard.tsx line 80 runs
`setPlayers([])` (`clearAll`); part_000 line 80 runs `setPlayers((prev) =>
prev.filter((p) => p.id !== newWinner.id))`, a functional update on the pool
at completion time (`removeWinner`).  `date` models
`new Date().toLocaleString()`. -/
def completeDraw (pol : PoolPolicy) (s : LotteryState) (r : ℚ) (date : String) :
    LotteryState :=
  match s.pending with
  | none => s
  | some captured =>
    match captured[randomIndex r captured.length]? with
    | none => s
    | some w =>
      { s with
        winner := some w
        isDrawing := false
        winnersHistory :=
          { name := w.name, number := w.number, id := w.id, date := date }
            :: s.winnersHistory
        players :=
          match pol with
          | .clearAll => []
          | .removeWinner => s.players.filter (fun p => p.id != w.id)
        pending := none }

/-- `removePlayer` (lines 95-97):
`setPlayers(players.filter((player) => player.id !== id))`. -/
def removePlayer (s : LotteryState) (i : Int) : LotteryState :=
  { s with players := s.players.filter (fun p => p.id != i) }

/-- `clearHistory` (lines 91-93): `setWinnersHistory([])`. -/
def clearHistory (s : LotteryState) : LotteryState :=
  { s with winnersHistory := [] }

/-- `clearAllPlayers` (lines 99-101): `setPlayers([])`. -/
def clearAllPlayers (s : LotteryState) : LotteryState :=
  { s with players := [] }

/-! ## The localStorage load path (lines 17-27)

The mount effect runs `JSON.parse(localStorage.getItem("lotteryPlayers") ||
"[]")` and the same for `"lotteryWinners"`.  `localStorage.getItem` yields a
string or `null`; `null` and `""` are the only falsy values it can produce, so
`|| "[]"` substitutes `"[]"` exactly for an absent or empty slot.  There is no
`try`/`catch`: if `JSON.parse` throws, the effect throws.  We model
`JSON.parse` by an executable JSON parser (`Option`-valued: `none` is a thrown
`SyntaxError`); numbers are restricted to integers, which covers every value
this repository serialises (ids and timestamps are integers, all other fields
strings). -/

/-- JSON values, as produced by the modelled `JSON.parse`. -/
inductive Json where
  | null : Json
  | bool : Bool → Json
  | num : Int → Json
  | str : String → Json
  | arr : List Json → Json
  | obj : List (String × Json) → Json

/-- JSON insignificant whitespace. -/
def isJsonWs (c : Char) : Bool :=
  c = ' ' || c = '\t' || c = '\n' || c = '\r'

/-- Drop leading JSON whitespace. -/
def skipWs : List Char → List Char
  | [] => []
  | c :: cs => if isJsonWs c then skipWs cs else c :: cs

/-- Value of a hexadecimal digit, if any. -/
def hexVal (c : Char) : Option Nat :=
  if ('0' ≤ c ∧ c ≤ '9') then some (c.toNat - 48)
  else if ('a' ≤ c ∧ c ≤ 'f') then some (c.toNat - 87)
  else if ('A' ≤ c ∧ c ≤ 'F') then some (c.toNat - 55)
  else none

/-- Single-character escapes of JSON strings. -/
def escChar (c : Char) : Option Char :=
  if c = '"' then some '"'
  else if c = '\\' then some '\\'
  else if c = '/' then some '/'
  else if c = 'b' then some '\x08'
  else if c = 'f' then some '\x0c'
  else if c = 'n' then some '\n'
  else if c = 'r' then some '\r'
  else if c = 't' then some '\t'
  else none

/-- Parse the body of a JSON string (the opening quote already consumed),
accumulating into `acc`; returns the string and the rest of the input. -/
def parseStrBody (acc : List Char) : List Char → Option (String × List Char)
  | [] => none
  | '"' :: rest => some (⟨acc.reverse⟩, rest)
  | '\\' :: [] => none
  | '\\' :: c :: rest =>
    match escChar c with
    | some e => parseStrBody (e :: acc) rest
    | none =>
      if c = 'u' then
        match rest with
        | h1 :: h2 :: h3 :: h4 :: rest2 =>
          match hexVal h1, hexVal h2, hexVal h3, hexVal h4 with
          | some a, some b, some c3, some d =>
            parseStrBody (Char.ofNat (((a * 16 + b) * 16 + c3) * 16 + d) :: acc) rest2
          | _, _, _, _ => none
        | _ => none
      else none
  | c :: rest => parseStrBody (c :: acc) rest
termination_by cs => cs.length

/-- Parse a nonempty run of decimal digits as a natural number. -/
def parseNatNum (cs : List Char) : Option (Nat × List Char) :=
  let ds := cs.takeWhile Char.isDigit
  if ds.isEmpty then none
  else some (ds.foldl (fun acc c => 10 * acc + (c.toNat - 48)) 0, cs.drop ds.length)

mutual

/-- Parse one JSON value.  Fuel-driven so the mutual recursion is structural;
`jsonParse` supplies fuel exceeding any need of its input. -/
def parseJsonVal : Nat → List Char → Option (Json × List Char)
  | 0, _ => none
  | fuel + 1, cs =>
    match skipWs cs with
    | 'n' :: 'u' :: 'l' :: 'l' :: rest => some (.null, rest)
    | 't' :: 'r' :: 'u' :: 'e' :: rest => some (.bool true, rest)
    | 'f' :: 'a' :: 'l' :: 's' :: 'e' :: rest => some (.bool false, rest)
    | '"' :: rest =>
      match parseStrBody [] rest with
      | some (s, rest2) => some (.str s, rest2)
      | none => none
    | '[' :: rest =>
      match skipWs rest with
      | ']' :: rest2 => some (.arr [], rest2)
      | rest2 =>
        match parseJsonArrItems fuel rest2 with
        | some (vs, rest3) => some (.arr vs, rest3)
        | none => none
    | '\x7b' :: rest =>
      match skipWs rest with
      | '\x7d' :: rest2 => some (.obj [], rest2)
      | rest2 =>
        match parseJsonObjItems fuel rest2 with
        | some (fs, rest3) => some (.obj fs, rest3)
        | none => none
    | '-' :: rest =>
      match parseNatNum rest with
      | some (n, rest2) => some (.num (-(n : Int)), rest2)
      | none => none
    | c :: rest =>
      if c.isDigit then
        match parseNatNum (c :: rest) with
        | some (n, rest2) => some (.num (n : Int), rest2)
        | none => none
      else none
    | [] => none

/-- Parse the comma-separated items of a nonempty JSON array, up to and
including the closing bracket. -/
def parseJsonArrItems : Nat → List Char → Option (List Json × List Char)
  | 0, _ => none
  | fuel + 1, cs =>
    match parseJsonVal fuel cs with
    | none => none
    | some (v, rest) =>
      match skipWs rest with
      | ',' :: rest2 =>
        match parseJsonArrItems fuel rest2 with
        | some (vs, rest3) => some (v :: vs, rest3)
        | none => none
      | ']' :: rest2 => some ([v], rest2)
      | _ => none

/-- Parse the comma-separated members of a nonempty JSON object, up to and
including the closing brace. -/
def parseJsonObjItems : Nat → List Char → Option (List (String × Json) × List Char)
  | 0, _ => none
  | fuel + 1, cs =>
    match skipWs cs with
    | '"' :: rest =>
      match parseStrBody [] rest with
      | none => none
      | some (k, rest2) =>
        match skipWs rest2 with
        | ':' :: rest3 =>
          match parseJsonVal fuel rest3 with
          | none => none
          | some (v, rest4) =>
            match skipWs rest4 with
            | ',' :: rest5 =>
              match parseJsonObjItems fuel rest5 with
              | some (fs, rest6) => some ((k, v) :: fs, rest6)
              | none => none
            | '\x7d' :: rest5 => some ([(k, v)], rest5)
            | _ => none
        | _ => none
    | _ => none

end

/-- Model of `JSON.parse`: parse one value, allow trailing whitespace, and
fail (`none`, a thrown `SyntaxError`) on anything else. -/
def jsonParse (s : String) : Option Json :=
  match parseJsonVal (2 * s.length + 8) s.toList with
  | some (v, rest) => if (skipWs rest).isEmpty then some v else none
  | none => none

/-- `localStorage.getItem(key) || "[]"` (lines 20 and 23): `getItem` returns
the stored string or `null`; `null` and the empty string are falsy, every
other string is truthy. -/
def getItemOrEmptyArr (slot : Option String) : String :=
  match slot with
  | none => "[]"
  | some s => if s = "" then "[]" else s

/-- The mount effect (lines 18-27): parse the players slot, then the winners
slot, and deliver both parse results (the code applies them via `setPlayers` /
`setWinnersHistory` with no validation).  `none` models the effect throwing:
an unhandled `JSON.parse` exception reaches the caller. -/
def load (playersSlot winnersSlot : Option String) : Option (Json × Json) :=
  match jsonParse (getItemOrEmptyArr playersSlot) with
  | none => none
  | some p =>
    match jsonParse (getItemOrEmptyArr winnersSlot) with
    | none => none
    | some h => some (p, h)

/-! ## Helper lemmas and demo values -/

/-- The selection index is in bounds whenever the pool is nonempty and the
random draw lies in `[0, 1)`. -/
theorem randomIndex_lt (r : ℚ) (n : ℕ) (h0 : 0 ≤ r) (h1 : r < 1) (hn : 0 < n) :
    randomIndex r n < n := by
  have hn' : (0 : ℚ) < (n : ℚ) := by exact_mod_cast hn
  have hrn : r * (n : ℚ) < (n : ℚ) := by
    calc r * (n : ℚ) < 1 * (n : ℚ) := mul_lt_mul_of_pos_right h1 hn'
    _ = (n : ℚ) := one_mul _
  have hfl : Int.floor (r * (n : ℚ)) < (n : ℤ) := by
    rw [Int.floor_lt]
    exact_mod_cast hrn
  have hge : (0 : ℤ) ≤ Int.floor (r * (n : ℚ)) := by
    apply Int.floor_nonneg.mpr
    positivity
  unfold randomIndex
  omega

/-- Filtering away one present id from a pool of pairwise-distinct ids drops
the length by exactly one. -/
theorem length_filter_ne_id (l : List Player) (i : Int)
    (hnd : (l.map Player.id).Nodup) (hm : i ∈ l.map Player.id) :
    (l.filter (fun p => p.id != i)).length + 1 = l.length := by
  induction l with
  | nil => simp at hm
  | cons p t ih =>
    simp only [List.map_cons, List.nodup_cons] at hnd
    obtain ⟨hpn, hnd'⟩ := hnd
    by_cases hpi : p.id = i
    · have ht : t.filter (fun q => q.id != i) = t := by
        apply List.filter_eq_self.mpr
        intro q hq
        have hq' : q.id ∈ t.map Player.id := List.mem_map_of_mem _ hq
        have : q.id ≠ i := fun he => hpn (by rw [hpi, ← he]; exact hq')
        simpa [bne_iff_ne] using this
      simp [List.filter_cons, hpi, ht]
    · have hm' : i ∈ t.map Player.id := by
        rcases List.mem_cons.mp hm with h | h
        · exact absurd h.symm hpi
        · exact h
      have := ih hnd' hm'
      have hcond : (p.id != i) = true := by simpa [bne_iff_ne] using hpi
      simp only [List.filter_cons, hcond, if_true, List.length_cons]
      omega

/-- A concrete entrant for witnesses. -/
def alice : Player := ⟨"Alice", "123", 1⟩

/-- A second concrete entrant for witnesses. -/
def bob : Player := ⟨"Bob", "456", 2⟩

/-- A concrete idle state with two registered entrants. -/
def demoState : LotteryState := ⟨[alice, bob], "", "", none, false, [], none⟩

/-- A concrete state with a draw in flight (the Draw button was pressed on
`demoState`, so the interval closure captured `[alice, bob]`). -/
def demoDrawing : LotteryState :=
  ⟨[alice, bob], "", "", none, true, [], some [alice, bob]⟩

/-- The user types `n1` and `m1` into the two inputs, presses Register when
`Date.now()` reads `t1`, then types `n2` and `m2` and presses Register when it
reads `t2`. -/
def registerTwice (s : LotteryState) (n1 m1 n2 m2 : String) (t1 t2 : Int) :
    LotteryState :=
  handleRegister
    (setNumberInput
      (setNameInput (handleRegister (setNumberInput (setNameInput s n1) m1) t1) n2)
      m2)
    t2

/-! ## Claims -/

/-- Claim C1, amended.  When a draw starts on a nonempty pool, the interval
closure captures exactly the pool at draw start; when the delay completes (in
either variant and for any `Math.random()` outcome in `[0, 1)`), exactly one
`WinnerRecord` is prepended to the history, and its name, number and id are
those of some entrant of that captured draw-start snapshot.  (The claim as
frozen says the selection set is the pool at delay completion "not at draw
start"; the code selects from the closure-captured draw-start pool, see
`c1_selection_set_counterexample`.  When the pool is not mutated during the
delay the two sets coincide.) -/
theorem c1_draw_prepends_winner_from_snapshot (pol : PoolPolicy)
    (s t : LotteryState) (r : ℚ) (d : String)
    (hne : s.players ≠ []) (hp : t.pending = some s.players)
    (h0 : 0 ≤ r) (h1 : r < 1) :
    (handleDraw s).pending = some s.players ∧
    ∃ w ∈ s.players,
      (completeDraw pol t r d).winnersHistory =
        { name := w.name, number := w.number, id := w.id, date := d }
          :: t.winnersHistory := by
  have hlen : 0 < s.players.length := List.length_pos.mpr hne
  constructor
  · have h0' : s.players.length ≠ 0 := Nat.pos_iff_ne_zero.mp hlen
    simp [handleDraw, h0']
  · have hidx : randomIndex r s.players.length < s.players.length :=
      randomIndex_lt r s.players.length h0 h1 hlen
    refine ⟨s.players[randomIndex r s.players.length], List.getElem_mem _, ?_⟩
    simp [completeDraw, hp, List.getElem?_eq_getElem hidx]

/-- Witness for C1 at a concrete state: draw on `[alice, bob]`, delay
completes with `Math.random() = 0`. -/
theorem c1_draw_prepends_winner_from_snapshot_witness :
    (handleDraw demoState).pending = some demoState.players ∧
    ∃ w ∈ demoState.players,
      (completeDraw .removeWinner (handleDraw demoState) 0 "1/1/2025").winnersHistory =
        { name := w.name, number := w.number, id := w.id, date := "1/1/2025" }
          :: (handleDraw demoState).winnersHistory :=
  c1_draw_prepends_winner_from_snapshot .removeWinner demoState (handleDraw demoState)
    0 "1/1/2025" (by decide) (by decide) (by norm_num) (by norm_num)

/-- Counterexample to Claim C1 as frozen: the winner-selection set is the
pool captured at draw start, not the pool at the instant the delay completes.
Start a draw on `[alice, bob]`, remove `alice` while the delay runs (the pool
data structure is not locked during the wait), and let the delay complete
with `Math.random() = 0`: the prepended record is `alice`'s, yet the pool at
delay-completion time is `[bob]`, which contains no entrant with `alice`'s
name and number. -/
theorem c1_selection_set_counterexample :
    (removePlayer (drawButtonClick demoState) 1).players = [bob] ∧
    (completeDraw .removeWinner (removePlayer (drawButtonClick demoState) 1)
        0 "1/1/2025").winnersHistory =
      [{ name := "Alice", number := "123", id := 1, date := "1/1/2025" }] ∧
    ∀ p ∈ (removePlayer (drawButtonClick demoState) 1).players,
      ¬(p.name = "Alice" ∧ p.number = "123") := by
  refine ⟨by decide, by with_unfolding_all rfl, by decide⟩

/-- Claim C2.  After a completed draw each variant applies its own post-draw
pool policy: the Dashboard.tsx variant (`clearAll`) empties the pool, and the
part_000 variant (`removeWinner`) keeps exactly the entrants whose id differs
from the winner's, in unchanged relative order. -/
theorem c2_post_draw_pool_policies (s : LotteryState) (captured : List Player)
    (r : ℚ) (d : String) (hp : s.pending = some captured) (hne : captured ≠ [])
    (h0 : 0 ≤ r) (h1 : r < 1) :
    ∃ w ∈ captured,
      (completeDraw .clearAll s r d).winner = some w ∧
      (completeDraw .removeWinner s r d).winner = some w ∧
      (completeDraw .clearAll s r d).players = [] ∧
      (completeDraw .removeWinner s r d).players.Sublist s.players ∧
      ∀ p, p ∈ (completeDraw .removeWinner s r d).players ↔
        (p ∈ s.players ∧ p.id ≠ w.id) := by
  have hlen : 0 < captured.length := List.length_pos.mpr hne
  have hidx : randomIndex r captured.length < captured.length :=
    randomIndex_lt r captured.length h0 h1 hlen
  refine ⟨captured[randomIndex r captured.length], List.getElem_mem _, ?_, ?_, ?_, ?_, ?_⟩
  · simp [completeDraw, hp, List.getElem?_eq_getElem hidx]
  · simp [completeDraw, hp, List.getElem?_eq_getElem hidx]
  · simp [completeDraw, hp, List.getElem?_eq_getElem hidx]
  · simp only [completeDraw, hp, List.getElem?_eq_getElem hidx]
    exact List.filter_sublist _
  · intro p
    simp [completeDraw, hp, List.getElem?_eq_getElem hidx, List.mem_filter,
      bne_iff_ne]

/-- Witness for C2 at a concrete in-flight state with `Math.random() = 0`:
the winner is `alice`, the `clearAll` pool is `[]`, the `removeWinner` pool
is `[bob]`. -/
theorem c2_post_draw_pool_policies_witness :
    ∃ w ∈ demoDrawing.pending.getD [],
      (completeDraw .clearAll demoDrawing 0 "d").winner = some w ∧
      (completeDraw .removeWinner demoDrawing 0 "d").winner = some w ∧
      (completeDraw .clearAll demoDrawing 0 "d").players = [] ∧
      (completeDraw .removeWinner demoDrawing 0 "d").players.Sublist demoDrawing.players ∧
      ∀ p, p ∈ (completeDraw .removeWinner demoDrawing 0 "d").players ↔
        (p ∈ demoDrawing.players ∧ p.id ≠ w.id) :=
  c2_post_draw_pool_policies demoDrawing [alice, bob] 0 "d" (by decide) (by decide)
    (by norm_num) (by norm_num)

/-- Claim C3, amended.  At startup `load` substitutes an empty collection for
an absent (or empty-string) storage slot and succeeds on such slots; it does
not recover from a malformed (unparsable) slot value — `JSON.parse` throws
and the failure reaches the caller (see `c3_malformed_slot_counterexample`). -/
theorem c3_load_substitutes_empty_for_absent (p h : Option String)
    (hp : p = none ∨ p = some "") (hh : h = none ∨ h = some "") :
    load p h = some (Json.arr [], Json.arr []) := by
  rcases hp with rfl | rfl <;> rcases hh with rfl | rfl <;> rfl

/-- Witness for C3: both slots absent. -/
theorem c3_load_substitutes_empty_for_absent_witness :
    load none none = some (Json.arr [], Json.arr []) :=
  c3_load_substitutes_empty_for_absent none none (Or.inl rfl) (Or.inl rfl)

/-- Counterexample to Claim C3 as frozen: a malformed players slot
(`"oops"` is not JSON) is not treated as an empty collection; `JSON.parse`
throws inside the mount effect (there is no `try`/`catch` in lines 18-27),
so the load fails the caller instead of returning a pool and a history. -/
theorem c3_malformed_slot_counterexample :
    load (some "oops") none = none := rfl

/-- Claim C4.  `handleRegister` rejects whenever the name or the number is
empty after trimming, and a rejected registration leaves the whole state —
in particular pool size and pool contents — unchanged. -/
theorem c4_register_rejects_blank_fields (s : LotteryState) (now : Int)
    (h : jsTrim s.name = "" ∨ jsTrim s.number = "") :
    handleRegister s now = s ∧ (handleRegister s now).players = s.players := by
  have he : handleRegister s now = s := by
    simp [handleRegister, h]
  exact ⟨he, by rw [he]⟩

/-- Witness for C4: a whitespace-only name is rejected. -/
theorem c4_register_rejects_blank_fields_witness :
    handleRegister ⟨[alice], " ", "456", none, false, [], none⟩ 7 =
      ⟨[alice], " ", "456", none, false, [], none⟩ ∧
    (handleRegister ⟨[alice], " ", "456", none, false, [], none⟩ 7).players =
      [alice] :=
  c4_register_rejects_blank_fields ⟨[alice], " ", "456", none, false, [], none⟩ 7
    (Or.inl (by decide))

/-- Claim C5, amended.  Registering two valid entrants in sequence appends
both to the pool in that order with trimmed fields, and their ids are the two
`Date.now()` readings.  The two ids are distinct provided the two readings
differ, and id-uniqueness of the pool is preserved provided each reading also
differs from every id already in the pool; `Date.now()` only guarantees
non-decreasing readings, so two registrations in the same millisecond
receive the same id (see `c5_same_millisecond_counterexample`). -/
theorem c5_two_registrations_append_in_order (s : LotteryState)
    (n1 m1 n2 m2 : String) (t1 t2 : Int)
    (h1 : jsTrim n1 ≠ "") (h2 : jsTrim m1 ≠ "")
    (h3 : jsTrim n2 ≠ "") (h4 : jsTrim m2 ≠ "")
    (hne : t1 ≠ t2)
    (hf1 : ∀ p ∈ s.players, p.id ≠ t1) (hf2 : ∀ p ∈ s.players, p.id ≠ t2)
    (hnd : (s.players.map Player.id).Nodup) :
    (registerTwice s n1 m1 n2 m2 t1 t2).players =
      s.players ++ [⟨jsTrim n1, jsTrim m1, t1⟩, ⟨jsTrim n2, jsTrim m2, t2⟩] ∧
    ((registerTwice s n1 m1 n2 m2 t1 t2).players.map Player.id).Nodup := by
  have hpl : (registerTwice s n1 m1 n2 m2 t1 t2).players =
      s.players ++ [⟨jsTrim n1, jsTrim m1, t1⟩, ⟨jsTrim n2, jsTrim m2, t2⟩] := by
    simp [registerTwice, handleRegister, setNameInput, setNumberInput,
      h1, h2, h3, h4]
  refine ⟨hpl, ?_⟩
  rw [hpl]
  have hdisj : List.Disjoint (s.players.map Player.id) [t1, t2] := by
    intro a ha hmem
    rcases List.mem_map.mp ha with ⟨p, hpmem, rfl⟩
    rcases List.mem_cons.mp hmem with h | h
    · exact hf1 p hpmem h
    · rcases List.mem_cons.mp h with h2 | h2
      · exact hf2 p hpmem h2
      · simp at h2
  have hrt : ([t1, t2] : List Int).Nodup := by simp [hne]
  simp only [List.map_append, List.map_cons, List.map_nil]
  exact List.nodup_append.mpr ⟨hnd, hrt, hdisj⟩

/-- Witness for C5: Alice then Bob at distinct clock readings 5 and 6. -/
theorem c5_two_registrations_append_in_order_witness :
    (registerTwice ⟨[], "", "", none, false, [], none⟩
        "Alice" "123" "Bob" "456" 5 6).players =
      [] ++ [⟨"Alice", "123", 5⟩, ⟨"Bob", "456", 6⟩] ∧
    ((registerTwice ⟨[], "", "", none, false, [], none⟩
        "Alice" "123" "Bob" "456" 5 6).players.map Player.id).Nodup :=
  c5_two_registrations_append_in_order ⟨[], "", "", none, false, [], none⟩
    "Alice" "123" "Bob" "456" 5 6 (by decide) (by decide) (by decide) (by decide)
    (by decide) (by decide) (by decide) (by decide)

/-- Counterexample to Claim C5 as frozen: two registrations in the same
millisecond (`Date.now()` reads 5 both times) produce entrants with equal,
not distinct, ids, and the pool's id-uniqueness invariant is violated. -/
theorem c5_same_millisecond_counterexample :
    ((registerTwice ⟨[], "", "", none, false, [], none⟩
        "Alice" "123" "Bob" "456" 5 5).players.map Player.id) = [5, 5] ∧
    ¬ ((registerTwice ⟨[], "", "", none, false, [], none⟩
        "Alice" "123" "Bob" "456" 5 5).players.map Player.id).Nodup := by
  refine ⟨by decide, by decide⟩

/-- Claim C6.  A draw request while the engine is already Drawing is a
no-op: the Draw button is disabled (`disabled={players.length === 0 ||
isDrawing}`), so the request changes nothing — no transition, no second
selection is scheduled (`pending` is untouched), and the eventual completion
of the in-flight draw is exactly what it would have been. -/
theorem c6_draw_request_while_drawing_noop (s : LotteryState)
    (h : s.isDrawing = true) :
    drawButtonClick s = s ∧
    ∀ (pol : PoolPolicy) (r : ℚ) (d : String),
      completeDraw pol (drawButtonClick s) r d = completeDraw pol s r d := by
  have he : drawButtonClick s = s := by
    simp [drawButtonClick, h]
  exact ⟨he, fun pol r d => by rw [he]⟩

/-- Witness for C6: a second click during the in-flight draw on
`demoDrawing` changes nothing. -/
theorem c6_draw_request_while_drawing_noop_witness :
    drawButtonClick demoDrawing = demoDrawing ∧
    ∀ (pol : PoolPolicy) (r : ℚ) (d : String),
      completeDraw pol (drawButtonClick demoDrawing) r d =
        completeDraw pol demoDrawing r d :=
  c6_draw_request_while_drawing_noop demoDrawing rfl

/-- Claim C7.  `removePlayer` with an absent id leaves the state unchanged
(no error: the filter is total); with a present id — under the pool's
id-uniqueness invariant — it shrinks the pool by exactly one entrant, keeps
exactly the entrants with a different id, and preserves the relative order
of the remaining entrants (the result is a sublist of the original pool). -/
theorem c7_removePlayer_spec (s : LotteryState) (i : Int) :
    (i ∉ s.players.map Player.id → removePlayer s i = s) ∧
    ((s.players.map Player.id).Nodup → i ∈ s.players.map Player.id →
      (removePlayer s i).players.length + 1 = s.players.length ∧
      (removePlayer s i).players.Sublist s.players ∧
      ∀ p, p ∈ (removePlayer s i).players ↔ (p ∈ s.players ∧ p.id ≠ i)) := by
  constructor
  · intro habs
    have hfix : s.players.filter (fun p => p.id != i) = s.players := by
      apply List.filter_eq_self.mpr
      intro p hp
      have : p.id ≠ i := fun he => habs (he ▸ List.mem_map_of_mem _ hp)
      simpa [bne_iff_ne] using this
    simp [removePlayer, hfix]
  · intro hnd hm
    refine ⟨length_filter_ne_id s.players i hnd hm, List.filter_sublist _, ?_⟩
    intro p
    simp [removePlayer, List.mem_filter, bne_iff_ne]

/-- Witness for C7: on `demoState` (`ids 1 and 2`), removing absent id 99 is
the identity and removing present id 1 shrinks the pool from 2 to 1. -/
theorem c7_removePlayer_spec_witness :
    removePlayer demoState 99 = demoState ∧
    (removePlayer demoState 1).players.length + 1 = demoState.players.length :=
  ⟨(c7_removePlayer_spec demoState 99).1 (by decide),
   (((c7_removePlayer_spec demoState 1).2 (by decide) (by decide))).1⟩

/-- Claim C8.  A draw requested on an empty pool is rejected synchronously
and leaves the whole state unchanged — both at the button (which is
disabled) and in `handleDraw` itself (`if (players.length === 0) return`):
no transition happens, no record is added, the engine stays Idle. -/
theorem c8_draw_on_empty_pool_noop (s : LotteryState) (h : s.players = []) :
    drawButtonClick s = s ∧ handleDraw s = s := by
  constructor
  · simp [drawButtonClick, h]
  · simp [handleDraw, h]

/-- Witness for C8: the empty idle state. -/
theorem c8_draw_on_empty_pool_noop_witness :
    drawButtonClick ⟨[], "", "", none, false, [], none⟩ =
      ⟨[], "", "", none, false, [], none⟩ ∧
    handleDraw ⟨[], "", "", none, false, [], none⟩ =
      ⟨[], "", "", none, false, [], none⟩ :=
  c8_draw_on_empty_pool_noop ⟨[], "", "", none, false, [], none⟩ rfl

/-- Claim C9.  `clearHistory` empties the history and leaves the pool
unchanged; `clearAllPlayers` empties the pool regardless of its prior size
and leaves the history unchanged. -/
theorem c9_clear_operations_frame (s : LotteryState) :
    (clearHistory s).winnersHistory = [] ∧
    (clearHistory s).players = s.players ∧
    (clearAllPlayers s).players = [] ∧
    (clearAllPlayers s).winnersHistory = s.winnersHistory := by
  refine ⟨rfl, rfl, rfl, rfl⟩

/-- Claim C10.  For a nonempty pool and any `Math.random()` outcome in
`[0, 1)`, the index `Math.floor(random * length)` is in bounds, so the
lookup `players[randomIndex]` yields an entrant of the pool and never an
absent value. -/
theorem c10_random_index_in_bounds (r : ℚ) (l : List Player)
    (h0 : 0 ≤ r) (h1 : r < 1) (hne : l ≠ []) :
    randomIndex r l.length < l.length ∧
    ∃ w, l[randomIndex r l.length]? = some w ∧ w ∈ l := by
  have hlen : 0 < l.length := List.length_pos.mpr hne
  have hidx : randomIndex r l.length < l.length :=
    randomIndex_lt r l.length h0 h1 hlen
  exact ⟨hidx, l[randomIndex r l.length],
    List.getElem?_eq_getElem hidx, List.getElem_mem _⟩

/-- Witness for C10: pool `[alice, bob]` with `Math.random() = 1/2` gives
index 1 and finds `bob`. -/
theorem c10_random_index_in_bounds_witness :
    randomIndex (1/2) ([alice, bob] : List Player).length <
      ([alice, bob] : List Player).length ∧
    ∃ w, ([alice, bob] : List Player)[randomIndex (1/2)
      ([alice, bob] : List Player).length]? = some w ∧ w ∈ [alice, bob] :=
  c10_random_index_in_bounds (1/2) [alice, bob] (by norm_num) (by norm_num)
    (by decide)
